import Mathlib

/-!
Verification of the gfx-replay keyframe recording/playback engine exercised by
`examples/tutorials/colabs/replay_tutorial.ipynb`.

The engine itself (keyframe data model, delta encoder, recorder, serializer and
player) lives outside the tutorial file, so its operations are modelled from the
specification; the tutorial's own computations (such as the snapshot-index
arithmetic of the multi-replay cell) are translated directly from the notebook
code.
-/

namespace GfxReplay

/-- Modelled from the spec (§7): error taxonomy of the replay core.  The
StateError/RangeError/FormatError/IntegrityError constructors mirror the four
documented error classes. -/
inductive ReplayError where
  | StateError
  | RangeError
  | FormatError
  | IntegrityError
deriving DecidableEq, Repr

/-- Modelled from the spec (§3): a transform is a translation (3 components)
plus a rotation quaternion (4 components).  The floating-point components are
modelled as exact integers. -/
structure Transform where
  tx : Int
  ty : Int
  tz : Int
  qw : Int
  qx : Int
  qy : Int
  qz : Int
deriving DecidableEq, Repr

/-- Modelled from the spec (§3): opaque stable identifier for a node within a
recorded session's node namespace. -/
abbrev SceneNodeId := Nat

/-- Modelled from the spec (§3): a NodeCreation delta
{id, parent or none, asset reference, initial transform}. -/
structure NodeCreation where
  nodeId : SceneNodeId
  parent : Option SceneNodeId
  assetRef : String
  transform : Transform
deriving DecidableEq, Repr

/-- Modelled from the spec (§3): a sparse NodeUpdate delta
{id, new transform}. -/
structure NodeUpdate where
  nodeId : SceneNodeId
  transform : Transform
deriving DecidableEq, Repr

/-- Modelled from the spec (§3): a Keyframe holds ordered creation, deletion
and update lists plus a name-to-transform user-transform mapping. -/
structure Keyframe where
  creations : List NodeCreation
  deletions : List SceneNodeId
  updates : List NodeUpdate
  userTransforms : List (String × Transform)
deriving DecidableEq, Repr

/-- Modelled from the spec (§3): a KeyframeSequence is an ordered sequence of
keyframes, index 0..N-1. -/
abbrev KeyframeSequence := List Keyframe

/-- Keyframe with empty delta lists and no user transforms. -/
def emptyKeyframe : Keyframe := ⟨[], [], [], []⟩

/-- Modelled from the spec (§3): the attributes a reconstructed scene node
carries (parent, asset reference, current transform). -/
structure NodeState where
  parent : Option SceneNodeId
  assetRef : String
  transform : Transform
deriving DecidableEq, Repr

/-- Modelled from the spec (§3): the cumulative scene state is the mapping from
scene node ids to node attributes, kept as an association list. -/
abbrev SceneState := List (SceneNodeId × NodeState)

/-- Apply one NodeCreation to the cumulative scene state. -/
def applyCreation (s : SceneState) (c : NodeCreation) : SceneState :=
  s ++ [(c.nodeId, ⟨c.parent, c.assetRef, c.transform⟩)]

/-- Apply one sparse NodeUpdate to the cumulative scene state. -/
def applyUpdate (s : SceneState) (u : NodeUpdate) : SceneState :=
  s.map (fun q => if q.1 = u.nodeId then (q.1, { q.2 with transform := u.transform }) else q)

/-- Apply one NodeDeletion to the cumulative scene state. -/
def applyDeletion (s : SceneState) (i : SceneNodeId) : SceneState :=
  s.filter (fun q => q.1 != i)

/-- Modelled from the spec (§3): applying a keyframe's operations to the prior
cumulative scene state (creations, then sparse updates, then deletions). -/
def applyKeyframe (s : SceneState) (k : Keyframe) : SceneState :=
  k.deletions.foldl applyDeletion (k.updates.foldl applyUpdate (k.creations.foldl applyCreation s))

/-- Modelled from the spec (§3, §4.4): the cumulative scene state at index `i`
is the fold of all keyframes' operations from 0 up to and including `i`. -/
def stateAt (s : KeyframeSequence) (i : Nat) : SceneState :=
  (s.take (i + 1)).foldl applyKeyframe []

/-- Modelled from the spec (§4.4): a loaded Player holds the keyframe sequence
immutably, the index of the keyframe it currently shows (none right after
loading, before the first seek), and the cached reconstructed scene state. -/
structure Player where
  seq : KeyframeSequence
  curIndex : Option Nat
  state : SceneState
deriving DecidableEq, Repr

/-- Modelled from the spec (§4.4): loading a sequence yields a player that has
not yet applied any keyframe. -/
def Player.load (s : KeyframeSequence) : Player := ⟨s, none, []⟩

/-- Modelled from the spec (§4.4): number of keyframes held by the player. -/
def get_num_keyframes (p : Player) : Nat := p.seq.length

/-- Modelled from the spec (§4.4): the state computed by a seek to index `i`.
When the cached index is at or behind the target, only the incremental diff
(keyframes `curIndex+1 .. i`) is applied to the cached state; otherwise the
state is re-folded from keyframe 0. -/
def seekState (p : Player) (i : Nat) : SceneState :=
  match p.curIndex with
  | some j =>
      if j ≤ i then ((p.seq.drop (j + 1)).take (i - j)).foldl applyKeyframe p.state
      else stateAt p.seq i
  | none => stateAt p.seq i

/-- Player after an in-range seek to index `i`. -/
def seekTo (p : Player) (i : Nat) : Player := ⟨p.seq, some i, seekState p i⟩

/-- Modelled from the spec (§4.4): `setKeyframeIndex i` requires `0 ≤ i < N`,
failing with RangeError otherwise; on failure the player is left unchanged. -/
def set_keyframe_index (p : Player) (i : Nat) : Player × Option ReplayError :=
  if i < p.seq.length then (seekTo p i, none) else (p, some ReplayError.RangeError)

/-- Modelled from the spec (§4.4): `getUserTransform name` returns the value
recorded in the current keyframe's user-transform mapping only, and none when
the name is absent there (or when no keyframe has been applied yet). -/
def get_user_transform (p : Player) (name : String) : Option Transform :=
  match p.curIndex with
  | some j =>
      match p.seq[j]? with
      | some k => k.userTransforms.lookup name
      | none => none
  | none => none

/-- Look up a node id in a reconstructed scene state. -/
def lookupNode (s : SceneState) (i : SceneNodeId) : Option NodeState := s.lookup i

/-- Run a list of seek requests against a player, each through
`set_keyframe_index` (failed seeks leave the player unchanged). -/
def runSeeks (p : Player) (js : List Nat) : Player :=
  js.foldl (fun q j => (set_keyframe_index q j).1) p

/-- Synchronisation invariant of the player's cache: whenever the player shows
keyframe `j`, its cached state is the full fold of keyframes `0..j`. -/
def Synced (p : Player) : Prop :=
  ∀ j, p.curIndex = some j → p.state = stateAt p.seq j

theorem load_synced (s : KeyframeSequence) : Synced (Player.load s) := by
  intro j hj
  simp [Player.load] at hj

theorem stateAt_incremental (s : KeyframeSequence) {j i : Nat} (hji : j ≤ i) :
    ((s.drop (j + 1)).take (i - j)).foldl applyKeyframe (stateAt s j) = stateAt s i := by
  have h1 : i + 1 = (j + 1) + (i - j) := by omega
  unfold stateAt
  rw [h1, List.take_add s (j + 1) (i - j), List.foldl_append]

theorem seekState_synced (p : Player) (i : Nat) (hs : Synced p) :
    seekState p i = stateAt p.seq i := by
  unfold seekState
  cases hc : p.curIndex with
  | none => rfl
  | some j =>
      rw [hs j hc]
      by_cases hji : j ≤ i
      · simp [hji, stateAt_incremental p.seq hji]
      · simp [hji]

theorem seekTo_synced (p : Player) (i : Nat) (hs : Synced p) : Synced (seekTo p i) := by
  intro j hj
  simp [seekTo] at hj ⊢
  rw [← hj, seekState_synced p i hs]

theorem set_keyframe_index_synced (p : Player) (i : Nat) (hs : Synced p) :
    Synced (set_keyframe_index p i).1 ∧ (set_keyframe_index p i).1.seq = p.seq := by
  unfold set_keyframe_index
  by_cases h : i < p.seq.length
  · simp [h]
    exact ⟨seekTo_synced p i hs, rfl⟩
  · simp [h]
    exact hs

theorem runSeeks_synced (js : List Nat) :
    ∀ p : Player, Synced p → Synced (runSeeks p js) ∧ (runSeeks p js).seq = p.seq := by
  induction js with
  | nil => intro p hp; exact ⟨hp, rfl⟩
  | cons j js ih =>
      intro p hp
      have hstep := set_keyframe_index_synced p j hp
      have htail := ih (set_keyframe_index p j).1 hstep.1
      refine ⟨?_, ?_⟩
      · simpa [runSeeks] using htail.1
      · calc (runSeeks p (j :: js)).seq = (runSeeks (set_keyframe_index p j).1 js).seq := by
              simp [runSeeks]
          _ = (set_keyframe_index p j).1.seq := htail.2
          _ = p.seq := hstep.2

theorem direct_seek_state (p : Player) (i : Nat) (hs : Synced p) (h : i < p.seq.length) :
    (set_keyframe_index p i).1.state = stateAt p.seq i := by
  simp [set_keyframe_index, h, seekTo, seekState_synced p i hs]

theorem runSeeks_range_state (s : KeyframeSequence) (i : Nat) (h : i < s.length) :
    (runSeeks (Player.load s) (List.range (i + 1))).state = stateAt s i := by
  have hr : List.range (i + 1) = List.range i ++ [i] := by
    rw [List.range_succ]
  obtain ⟨hs, hseq⟩ := runSeeks_synced (List.range i) (Player.load s) (load_synced s)
  have hlt : i < (runSeeks (Player.load s) (List.range i)).seq.length := by
    rw [hseq]; exact h
  have hd := direct_seek_state (runSeeks (Player.load s) (List.range i)) i hs hlt
  rw [hseq] at hd
  have hsplit : runSeeks (Player.load s) (List.range i ++ [i])
      = (set_keyframe_index (runSeeks (Player.load s) (List.range i)) i).1 := by
    simp [runSeeks, List.foldl_append]
  rw [hr, hsplit]
  exact hd

/-- Demo transform: identity rotation, zero translation (node A at the origin). -/
def idT : Transform := ⟨0, 0, 0, 1, 0, 0, 0⟩

/-- Demo transform: node A translated to (1,0,0). -/
def unitXT : Transform := ⟨1, 0, 0, 1, 0, 0, 0⟩

/-- Demo transform recorded under the user-transform name "sensor". -/
def sensorT : Transform := ⟨2, 3, 4, 1, 0, 0, 0⟩

/-- Demo keyframe 0: creates node 7 at the origin and records a "sensor"
user transform. -/
def demoKf0 : Keyframe := ⟨[⟨7, none, "chefcan", idT⟩], [], [], [("sensor", sensorT)]⟩

/-- Demo keyframe 1: updates node 7's transform to translation (1,0,0); its
user-transform mapping has no "sensor" entry. -/
def demoKf1 : Keyframe := ⟨[], [], [⟨7, unitXT⟩], []⟩

/-- Demo keyframe 2: deletes node 7. -/
def demoKf2 : Keyframe := ⟨[], [7], [], []⟩

/-- Three-keyframe demo sequence: create node A, move it, delete it. -/
def demoSeq : KeyframeSequence := [demoKf0, demoKf1, demoKf2]

/-- C2: for every loaded sequence and every in-range index `i`, the state
produced by seeking directly to `i` — after arbitrary prior seeks, reverse or
strided — equals the state produced by seeking sequentially through 0,1,...,i,
and both equal the full re-fold of keyframes 0..i from scratch: the cached
incremental-application implementation refines the full re-fold. -/
theorem random_access_equivalence (s : KeyframeSequence) (js : List Nat) (i : Nat)
    (h : i < s.length) :
    (set_keyframe_index (runSeeks (Player.load s) js) i).1.state
        = (runSeeks (Player.load s) (List.range (i + 1))).state
  ∧ (set_keyframe_index (runSeeks (Player.load s) js) i).1.state = stateAt s i := by
  obtain ⟨hs, hseq⟩ := runSeeks_synced js (Player.load s) (load_synced s)
  have hlt : i < (runSeeks (Player.load s) js).seq.length := by rw [hseq]; exact h
  have hd := direct_seek_state (runSeeks (Player.load s) js) i hs hlt
  rw [hseq] at hd
  have hd2 : (set_keyframe_index (runSeeks (Player.load s) js) i).1.state = stateAt s i := hd
  exact ⟨by rw [hd2, runSeeks_range_state s i h], hd2⟩

/-- Witness for C2: on the three-keyframe demo sequence, after prior seeks to
indices 2 and 0 (reverse access), a direct seek to 1 reconstructs exactly the
fold of keyframes 0..1. -/
theorem random_access_equivalence_witness :
    (set_keyframe_index (runSeeks (Player.load demoSeq) [2, 0]) 1).1.state
      = stateAt demoSeq 1 :=
  (random_access_equivalence demoSeq [2, 0] 1 (by decide)).2

/-- C3: `setKeyframeIndex` is deterministic (it is a pure function of the
player state and index) and idempotent: repeating the call with the same index
on the resulting player yields a bit-identical player and result, so repeated
seeks to the same index give identical reconstructed scene state. -/
theorem set_keyframe_index_idempotent (p : Player) (i : Nat) :
    set_keyframe_index (set_keyframe_index p i).1 i = set_keyframe_index p i := by
  by_cases h : i < p.seq.length
  · simp [set_keyframe_index, h, seekTo, seekState, Nat.sub_self]
  · simp [set_keyframe_index, h]

/-- C4: after a successful `setKeyframeIndex i`, `getUserTransform name`
returns exactly the entry recorded under `name` in keyframe `i`'s
user-transform mapping; in particular, when the name is absent from keyframe
`i`'s mapping the result is none, never a value inherited from an earlier
keyframe. -/
theorem get_user_transform_current_only (p : Player) (i : Nat) (name : String)
    (h : i < p.seq.length) :
    get_user_transform (set_keyframe_index p i).1 name
        = (p.seq.get ⟨i, h⟩).userTransforms.lookup name
  ∧ ((p.seq.get ⟨i, h⟩).userTransforms.lookup name = none →
      get_user_transform (set_keyframe_index p i).1 name = none) := by
  have hmain : get_user_transform (set_keyframe_index p i).1 name
      = (p.seq.get ⟨i, h⟩).userTransforms.lookup name := by
    simp [set_keyframe_index, h, seekTo, get_user_transform, List.getElem?_eq_getElem]
  exact ⟨hmain, fun hn => by rw [hmain, hn]⟩

/-- Witness for C4: on the demo sequence, keyframe 0 records a "sensor" user
transform but keyframe 1 does not; querying "sensor" while showing keyframe 1
returns none rather than the stale value from keyframe 0. -/
theorem get_user_transform_current_only_witness :
    get_user_transform (set_keyframe_index (Player.load demoSeq) 1).1 "sensor" = none := by
  have h := (get_user_transform_current_only (Player.load demoSeq) 1 "sensor" (by decide)).1
  rw [h]
  decide

/-- C5: `setKeyframeIndex i` on a loaded player with N keyframes succeeds
(returns no error) iff `0 ≤ i < N`; for every out-of-range `i` it fails with
RangeError and returns the player completely unchanged. -/
theorem set_keyframe_index_range_check (p : Player) (i : Nat) :
    ((set_keyframe_index p i).2 = none ↔ i < get_num_keyframes p)
  ∧ ((set_keyframe_index p i).2 = some ReplayError.RangeError ↔ ¬ i < get_num_keyframes p)
  ∧ (¬ i < get_num_keyframes p → set_keyframe_index p i = (p, some ReplayError.RangeError)) := by
  by_cases h : i < p.seq.length <;> simp [set_keyframe_index, get_num_keyframes, h]

/-- Witness for C5: seeking index 5 on the three-keyframe demo player fails
with RangeError and leaves the player unchanged. -/
theorem set_keyframe_index_range_check_witness :
    set_keyframe_index (Player.load demoSeq) 5
      = (Player.load demoSeq, some ReplayError.RangeError) :=
  (set_keyframe_index_range_check (Player.load demoSeq) 5).2.2 (by decide)

/-- C8: on the sequence whose keyframe 0 creates node 7 at the origin,
keyframe 1 updates its translation to (1,0,0) and keyframe 2 deletes it:
after seeking to 0 the reconstructed state shows node 7 at the origin, after
seeking to 1 it shows node 7 at (1,0,0), and after seeking to 2 node 7 is
absent. -/
theorem three_keyframe_scenario :
    lookupNode (set_keyframe_index (Player.load demoSeq) 0).1.state 7
        = some ⟨none, "chefcan", idT⟩
  ∧ lookupNode (set_keyframe_index (Player.load demoSeq) 1).1.state 7
        = some ⟨none, "chefcan", unitXT⟩
  ∧ lookupNode (set_keyframe_index (Player.load demoSeq) 2).1.state 7 = none := by
  decide

/-- Number of replay copies loaded by the notebook's multi-replay cell. -/
def num_copies : Nat := 30

/-- Translated from the notebook's multi-replay cell: the keyframe index that
copy `i` is sought to is `other_player.get_num_keyframes() // (num_copies - 1) * i`
(Python floor division, left-associated). -/
def snapshot_index (p : Player) (i : Nat) : Nat :=
  get_num_keyframes p / (num_copies - 1) * i

/-- A sequence of 29 keyframes: a keyframe count divisible by
`num_copies - 1 = 29`. -/
def seq29 : KeyframeSequence := List.replicate 29 emptyKeyframe

/-- C10: the claim fails — for a loaded replay with N = 29 keyframes (N ≥ 1 and
29 divides N), the copy index i = 29 (which is < num_copies = 30, so the loop
reaches it) makes the cell compute frame index (29 // 29) * 29 = 29 = N, which
violates the 0 ≤ index < N precondition and makes `set_keyframe_index` fail
with RangeError. -/
theorem snapshot_index_out_of_range :
    29 < num_copies
  ∧ 1 ≤ get_num_keyframes (Player.load seq29)
  ∧ snapshot_index (Player.load seq29) 29 = get_num_keyframes (Player.load seq29)
  ∧ (set_keyframe_index (Player.load seq29) (snapshot_index (Player.load seq29) 29)).2
        = some ReplayError.RangeError := by
  decide

/-- Modelled from the spec (§3, §4.1): the set of ids a keyframe's updates and
deletions may legally reference — the ids already live in the session plus the
ids created by this keyframe itself. -/
def validKeyframeIds (live : List SceneNodeId) (k : Keyframe) : List SceneNodeId :=
  live ++ k.creations.map NodeCreation.nodeId

/-- Modelled from the spec (§4.1, §7): best-effort validation of a captured
keyframe.  Every update or deletion referencing an id never created raises an
IntegrityError and only that offending entry is dropped; all other entries are
kept. -/
def validateKeyframe (live : List SceneNodeId) (k : Keyframe) : Keyframe × List ReplayError :=
  (⟨k.creations,
    k.deletions.filter (fun d => (validKeyframeIds live k).contains d),
    k.updates.filter (fun u => (validKeyframeIds live k).contains u.nodeId),
    k.userTransforms⟩,
   (k.updates.filter (fun u => !(validKeyframeIds live k).contains u.nodeId)).map
      (fun _ => ReplayError.IntegrityError)
    ++ (k.deletions.filter (fun d => !(validKeyframeIds live k).contains d)).map
      (fun _ => ReplayError.IntegrityError))

/-- Modelled from the spec (§4.3): the recorder's two-state lifecycle. -/
inductive RecorderPhase where
  | Idle
  | Recording
deriving DecidableEq, Repr

/-- Modelled from the spec (§4.3): a recording session accumulating keyframes
in memory, together with the set of node ids currently live in the session. -/
structure Recorder where
  phase : RecorderPhase
  keyframes : KeyframeSequence
  liveIds : List SceneNodeId
deriving DecidableEq, Repr

/-- Modelled from the spec (§4.3, §7): `captureKeyframe` appends the validated
keyframe while Recording (surfacing recovered IntegrityErrors) and fails with
StateError while Idle. -/
def captureKeyframe (r : Recorder) (k : Keyframe) : Recorder × List ReplayError :=
  match r.phase with
  | RecorderPhase.Idle => (r, [ReplayError.StateError])
  | RecorderPhase.Recording =>
      (⟨RecorderPhase.Recording,
        r.keyframes ++ [(validateKeyframe r.liveIds k).1],
        (validKeyframeIds r.liveIds k).filter
          (fun i => !(validateKeyframe r.liveIds k).1.deletions.contains i)⟩,
       (validateKeyframe r.liveIds k).2)

/-- C6: when a captured delta references a SceneNodeId never created — an
unknown id in a transform update, or a deletion of an uncreated id — the
capture surfaces an IntegrityError, stays in the Recording phase (the session
continues), keeps every previously recorded keyframe, appends the keyframe
with exactly the valid entries kept (creations and user transforms untouched,
updates and deletions filtered to known ids), and every offending entry of
either kind is dropped. -/
theorem integrity_error_recovery (r : Recorder) (k : Keyframe)
    (hrec : r.phase = RecorderPhase.Recording)
    (hbad : (∃ u ∈ k.updates, (validKeyframeIds r.liveIds k).contains u.nodeId = false)
          ∨ ∃ d ∈ k.deletions, (validKeyframeIds r.liveIds k).contains d = false) :
    ReplayError.IntegrityError ∈ (captureKeyframe r k).2
  ∧ (captureKeyframe r k).1.phase = RecorderPhase.Recording
  ∧ (captureKeyframe r k).1.keyframes
      = r.keyframes ++ [⟨k.creations,
          k.deletions.filter (fun d => (validKeyframeIds r.liveIds k).contains d),
          k.updates.filter (fun v => (validKeyframeIds r.liveIds k).contains v.nodeId),
          k.userTransforms⟩]
  ∧ (∀ u ∈ k.updates, (validKeyframeIds r.liveIds k).contains u.nodeId = false →
        u ∉ k.updates.filter (fun v => (validKeyframeIds r.liveIds k).contains v.nodeId))
  ∧ (∀ d ∈ k.deletions, (validKeyframeIds r.liveIds k).contains d = false →
        d ∉ k.deletions.filter (fun d2 => (validKeyframeIds r.liveIds k).contains d2)) := by
  cases r with
  | mk ph kfs live =>
      cases ph with
      | Idle => simp at hrec
      | Recording =>
          refine ⟨?_, rfl, rfl, ?_, ?_⟩
          · rcases hbad with ⟨u, hu, hbadu⟩ | ⟨d, hd, hbadd⟩
            · have hbad2 : u.nodeId ∉ validKeyframeIds live k := by simpa using hbadu
              exact List.mem_append_left _
                (List.mem_map_of_mem _ (List.mem_filter.mpr ⟨hu, by simp [hbad2]⟩))
            · have hbad2 : d ∉ validKeyframeIds live k := by simpa using hbadd
              exact List.mem_append_right _
                (List.mem_map_of_mem _ (List.mem_filter.mpr ⟨hd, by simp [hbad2]⟩))
          · intro u _ hbadu hmem
            have hbad2 : u.nodeId ∉ validKeyframeIds live k := by simpa using hbadu
            have hc := (List.mem_filter.mp hmem).2
            simp at hc
            exact hbad2 hc
          · intro d _ hbadd hmem
            have hbad2 : d ∉ validKeyframeIds live k := by simpa using hbadd
            have hc := (List.mem_filter.mp hmem).2
            simp at hc
            exact hbad2 hc

/-- Demo recorder mid-session: Recording, no keyframes yet, node 5 live. -/
def exRecorder : Recorder := ⟨RecorderPhase.Recording, [], [5]⟩

/-- Demo keyframe that deletes the uncreated id 9, whose first update also
references the unknown id 9, and whose second update references the live
id 5. -/
def exBadKeyframe : Keyframe := ⟨[], [9], [⟨9, idT⟩, ⟨5, idT⟩], []⟩

/-- The offending update entry of `exBadKeyframe`. -/
def exBadUpdate : NodeUpdate := ⟨9, idT⟩

/-- Witness for C6: capturing the demo keyframe that deletes the uncreated id
9 (and also updates it) surfaces an IntegrityError, keeps the session
recording, and drops both offending entries — the unknown-id update from the
kept updates and the uncreated-id deletion from the kept deletions. -/
theorem integrity_error_recovery_witness :
    ReplayError.IntegrityError ∈ (captureKeyframe exRecorder exBadKeyframe).2
  ∧ (captureKeyframe exRecorder exBadKeyframe).1.phase = RecorderPhase.Recording
  ∧ exBadUpdate ∉ exBadKeyframe.updates.filter
      (fun v => (validKeyframeIds exRecorder.liveIds exBadKeyframe).contains v.nodeId)
  ∧ (9 : SceneNodeId) ∉ exBadKeyframe.deletions.filter
      (fun d2 => (validKeyframeIds exRecorder.liveIds exBadKeyframe).contains d2) :=
  ⟨(integrity_error_recovery exRecorder exBadKeyframe rfl
      (Or.inr ⟨9, by decide, by decide⟩)).1,
   (integrity_error_recovery exRecorder exBadKeyframe rfl
      (Or.inr ⟨9, by decide, by decide⟩)).2.1,
   (integrity_error_recovery exRecorder exBadKeyframe rfl
      (Or.inr ⟨9, by decide, by decide⟩)).2.2.2.1 exBadUpdate (by decide) (by decide),
   (integrity_error_recovery exRecorder exBadKeyframe rfl
      (Or.inr ⟨9, by decide, by decide⟩)).2.2.2.2 9 (by decide) (by decide)⟩

/-- Modelled from the spec (§3, §9): a live scene-graph handle owned by the
host, distinct from the replay core's SceneNodeId namespace. -/
abbrev LiveHandle := Nat

/-- Modelled from the spec (§4.1, §9): the scene-graph mutations the delta
encoder observes each tick. -/
inductive SceneEvent where
  | create (h : LiveHandle) (asset : String) (t : Transform)
  | destroy (h : LiveHandle)
  | move (h : LiveHandle) (t : Transform)
deriving DecidableEq, Repr

/-- Modelled from the spec (§3): the delta encoder's id allocator — the next
fresh SceneNodeId (assigned monotonically, never decremented) and the mapping
from live handles to the ids assigned on first observation. -/
structure Encoder where
  nextId : Nat
  handleMap : List (LiveHandle × SceneNodeId)
deriving DecidableEq, Repr

/-- Modelled from the spec (§3, §4.1): processing one observed event.  A newly
observed handle is assigned the fresh id `nextId` (which is then incremented);
a destroyed handle is removed from the mapping but `nextId` is never reused;
a move of an unknown handle is dropped (recovered IntegrityError). -/
def stepEvent (s : Encoder × Keyframe) (ev : SceneEvent) : Encoder × Keyframe :=
  match ev with
  | SceneEvent.create h asset t =>
      match s.1.handleMap.lookup h with
      | some _ => s
      | none =>
          (⟨s.1.nextId + 1, s.1.handleMap ++ [(h, s.1.nextId)]⟩,
           { s.2 with creations := s.2.creations ++ [⟨s.1.nextId, none, asset, t⟩] })
  | SceneEvent.destroy h =>
      match s.1.handleMap.lookup h with
      | some i =>
          (⟨s.1.nextId, s.1.handleMap.filter (fun q => q.1 != h)⟩,
           { s.2 with deletions := s.2.deletions ++ [i] })
      | none => s
  | SceneEvent.move h t =>
      match s.1.handleMap.lookup h with
      | some i => (s.1, { s.2 with updates := s.2.updates ++ [⟨i, t⟩] })
      | none => s

/-- Modelled from the spec (§4.1): `beginFrame`/`endFrame` — fold the tick's
observed events into a fresh keyframe and attach the user-transform mapping. -/
def encodeTick (e : Encoder) (evs : List SceneEvent)
    (userT : List (String × Transform)) : Encoder × Keyframe :=
  ((evs.foldl stepEvent (e, emptyKeyframe)).1,
   { (evs.foldl stepEvent (e, emptyKeyframe)).2 with userTransforms := userT })

/-- Modelled from the spec (§4.3): a whole recording session — one keyframe
captured per tick, the encoder state threaded through. -/
def recordSession :
    Encoder → List (List SceneEvent × List (String × Transform)) →
      Encoder × KeyframeSequence
  | e, [] => (e, [])
  | e, t :: ts =>
      ((recordSession (encodeTick e t.1 t.2).1 ts).1,
       (encodeTick e t.1 t.2).2 :: (recordSession (encodeTick e t.1 t.2).1 ts).2)

/-- Ids of the NodeCreation operations of one keyframe. -/
def creationIds (k : Keyframe) : List SceneNodeId := k.creations.map NodeCreation.nodeId

/-- Ids of all NodeCreation operations across a whole keyframe sequence. -/
def allCreationIds (s : KeyframeSequence) : List SceneNodeId := (s.map creationIds).flatten

/-- Allocator invariant: every id already handed out to a live handle is below
the next fresh id. -/
def EncBounded (e : Encoder) : Prop := ∀ q ∈ e.handleMap, q.2 < e.nextId

theorem stepEvent_nextId_mono (ev : SceneEvent) (e : Encoder) (k : Keyframe) :
    e.nextId ≤ (stepEvent (e, k) ev).1.nextId := by
  cases ev with
  | create h asset t =>
      cases hl : e.handleMap.lookup h <;> simp [stepEvent, hl]
  | destroy h =>
      cases hl : e.handleMap.lookup h <;> simp [stepEvent, hl]
  | move h t =>
      cases hl : e.handleMap.lookup h <;> simp [stepEvent, hl]

theorem stepEvent_bounded (ev : SceneEvent) (e : Encoder) (k : Keyframe)
    (hb : EncBounded e) : EncBounded (stepEvent (e, k) ev).1 := by
  cases ev with
  | create h asset t =>
      cases hl : e.handleMap.lookup h with
      | some j => simpa [stepEvent, hl] using hb
      | none =>
          intro q hq
          simp [stepEvent, hl] at hq ⊢
          rcases hq with hq | hq
          · exact Nat.lt_succ_of_lt (hb q hq)
          · rw [hq]; exact Nat.lt_succ_self _
  | destroy h =>
      cases hl : e.handleMap.lookup h with
      | some j =>
          intro q hq
          simp [stepEvent, hl] at hq ⊢
          exact hb q hq.1
      | none => simpa [stepEvent, hl] using hb
  | move h t =>
      cases hl : e.handleMap.lookup h <;> simpa [stepEvent, hl] using hb

theorem stepEvent_creationIds (ev : SceneEvent) (e : Encoder) (k : Keyframe) :
    creationIds (stepEvent (e, k) ev).2 = creationIds k
  ∨ (creationIds (stepEvent (e, k) ev).2 = creationIds k ++ [e.nextId]
      ∧ (stepEvent (e, k) ev).1.nextId = e.nextId + 1) := by
  cases ev with
  | create h asset t =>
      cases hl : e.handleMap.lookup h with
      | some j => left; simp [stepEvent, hl]
      | none => right; simp [stepEvent, hl, creationIds]
  | destroy h =>
      cases hl : e.handleMap.lookup h <;> left <;> simp [stepEvent, hl, creationIds]
  | move h t =>
      cases hl : e.handleMap.lookup h <;> left <;> simp [stepEvent, hl, creationIds]

theorem foldl_stepEvent_spec (evs : List SceneEvent) :
    ∀ (e : Encoder) (k : Keyframe), EncBounded e →
    (∀ i ∈ creationIds k, i < e.nextId) → (creationIds k).Nodup →
    EncBounded (evs.foldl stepEvent (e, k)).1
  ∧ e.nextId ≤ (evs.foldl stepEvent (e, k)).1.nextId
  ∧ (∀ i ∈ creationIds (evs.foldl stepEvent (e, k)).2,
        i < (evs.foldl stepEvent (e, k)).1.nextId)
  ∧ (creationIds (evs.foldl stepEvent (e, k)).2).Nodup
  ∧ (∀ i ∈ creationIds (evs.foldl stepEvent (e, k)).2,
        i ∈ creationIds k ∨ e.nextId ≤ i) := by
  induction evs with
  | nil =>
      intro e k hb hlt hnd
      exact ⟨hb, Nat.le_refl _, hlt, hnd, fun i hi => Or.inl hi⟩
  | cons ev evs ih =>
      intro e k hb hlt hnd
      have hmono := stepEvent_nextId_mono ev e k
      have hb' := stepEvent_bounded ev e k hb
      have hfold : (ev :: evs).foldl stepEvent (e, k)
          = evs.foldl stepEvent (stepEvent (e, k) ev) := rfl
      have hpair : stepEvent (e, k) ev
          = ((stepEvent (e, k) ev).1, (stepEvent (e, k) ev).2) := rfl
      rcases stepEvent_creationIds ev e k with hid | ⟨hid, hnext⟩
      · have hlt' : ∀ i ∈ creationIds (stepEvent (e, k) ev).2,
            i < (stepEvent (e, k) ev).1.nextId := by
          intro i hi
          rw [hid] at hi
          exact Nat.lt_of_lt_of_le (hlt i hi) hmono
        have hnd' : (creationIds (stepEvent (e, k) ev).2).Nodup := by rw [hid]; exact hnd
        have h := ih (stepEvent (e, k) ev).1 (stepEvent (e, k) ev).2 hb' hlt' hnd'
        rw [hfold, hpair]
        refine ⟨h.1, Nat.le_trans hmono h.2.1, h.2.2.1, h.2.2.2.1, ?_⟩
        intro i hi
        rcases h.2.2.2.2 i hi with hmem | hge
        · rw [hid] at hmem; exact Or.inl hmem
        · exact Or.inr (Nat.le_trans hmono hge)
      · have hlt' : ∀ i ∈ creationIds (stepEvent (e, k) ev).2,
            i < (stepEvent (e, k) ev).1.nextId := by
          intro i hi
          rw [hid] at hi
          rw [hnext]
          rcases List.mem_append.mp hi with hmem | hmem
          · exact Nat.lt_succ_of_lt (hlt i hmem)
          · rw [List.mem_singleton.mp hmem]; exact Nat.lt_succ_self _
        have hnd' : (creationIds (stepEvent (e, k) ev).2).Nodup := by
          rw [hid]
          refine hnd.append (List.nodup_singleton _) ?_
          intro a ha hb2
          rw [List.mem_singleton.mp hb2] at ha
          exact Nat.lt_irrefl _ (hlt _ ha)
        have h := ih (stepEvent (e, k) ev).1 (stepEvent (e, k) ev).2 hb' hlt' hnd'
        rw [hfold, hpair]
        refine ⟨h.1, Nat.le_trans hmono h.2.1, h.2.2.1, h.2.2.2.1, ?_⟩
        intro i hi
        rcases h.2.2.2.2 i hi with hmem | hge
        · rw [hid] at hmem
          rcases List.mem_append.mp hmem with hmem2 | hmem2
          · exact Or.inl hmem2
          · rw [List.mem_singleton.mp hmem2]; exact Or.inr (Nat.le_refl _)
        · exact Or.inr (Nat.le_trans hmono hge)

theorem encodeTick_spec (e : Encoder) (evs : List SceneEvent)
    (userT : List (String × Transform)) (hb : EncBounded e) :
    EncBounded (encodeTick e evs userT).1
  ∧ e.nextId ≤ (encodeTick e evs userT).1.nextId
  ∧ (∀ i ∈ creationIds (encodeTick e evs userT).2,
        e.nextId ≤ i ∧ i < (encodeTick e evs userT).1.nextId)
  ∧ (creationIds (encodeTick e evs userT).2).Nodup := by
  have h := foldl_stepEvent_spec evs e emptyKeyframe hb
    (by intro i hi; simp [creationIds, emptyKeyframe] at hi)
    (by simp [creationIds, emptyKeyframe])
  have hids : creationIds (encodeTick e evs userT).2
      = creationIds (evs.foldl stepEvent (e, emptyKeyframe)).2 := rfl
  refine ⟨h.1, h.2.1, ?_, ?_⟩
  · intro i hi
    rw [hids] at hi
    refine ⟨?_, h.2.2.1 i hi⟩
    rcases h.2.2.2.2 i hi with hmem | hge
    · simp [creationIds, emptyKeyframe] at hmem
    · exact hge
  · rw [hids]; exact h.2.2.2.1

theorem recordSession_spec (ts : List (List SceneEvent × List (String × Transform))) :
    ∀ e : Encoder, EncBounded e →
    EncBounded (recordSession e ts).1
  ∧ e.nextId ≤ (recordSession e ts).1.nextId
  ∧ (∀ i ∈ allCreationIds (recordSession e ts).2,
        e.nextId ≤ i ∧ i < (recordSession e ts).1.nextId)
  ∧ (allCreationIds (recordSession e ts).2).Nodup := by
  induction ts with
  | nil =>
      intro e hb
      refine ⟨hb, Nat.le_refl _, ?_, ?_⟩
      · intro i hi; simp [recordSession, allCreationIds] at hi
      · simp [recordSession, allCreationIds]
  | cons t ts ih =>
      intro e hb
      obtain ⟨hb1, hm1, hbound1, hnd1⟩ := encodeTick_spec e t.1 t.2 hb
      obtain ⟨hb2, hm2, hbound2, hnd2⟩ := ih (encodeTick e t.1 t.2).1 hb1
      have hall : allCreationIds (recordSession e (t :: ts)).2
          = creationIds (encodeTick e t.1 t.2).2
            ++ allCreationIds (recordSession (encodeTick e t.1 t.2).1 ts).2 := by
        simp [recordSession, allCreationIds]
      have hfst : (recordSession e (t :: ts)).1
          = (recordSession (encodeTick e t.1 t.2).1 ts).1 := rfl
      refine ⟨by rw [hfst]; exact hb2, by rw [hfst]; exact Nat.le_trans hm1 hm2, ?_, ?_⟩
      · intro i hi
        rw [hall] at hi
        rw [hfst]
        rcases List.mem_append.mp hi with hmem | hmem
        · obtain ⟨hge, hlt⟩ := hbound1 i hmem
          exact ⟨hge, Nat.lt_of_lt_of_le hlt hm2⟩
        · obtain ⟨hge, hlt⟩ := hbound2 i hmem
          exact ⟨Nat.le_trans hm1 hge, hlt⟩
      · rw [hall]
        refine hnd1.append hnd2 ?_
        intro a ha hb2'
        obtain ⟨_, hlt⟩ := hbound1 a ha
        obtain ⟨hge, _⟩ := hbound2 a hb2'
        exact Nat.lt_irrefl _ (Nat.lt_of_lt_of_le hlt hge)

/-- C7: within one recording session (fresh id namespace: `nextId = 0`, empty
handle map), no two NodeCreation operations across the whole produced
KeyframeSequence share a SceneNodeId — ids are assigned monotonically on first
observation and never reused, even after the node is destroyed and its handle
observed again. -/
theorem creation_id_uniqueness (ts : List (List SceneEvent × List (String × Transform))) :
    (allCreationIds (recordSession ⟨0, []⟩ ts).2).Nodup :=
  (recordSession_spec ts ⟨0, []⟩ (fun q hq => absurd hq (List.not_mem_nil q))).2.2.2

/-- Modelled from the spec (§4.4): the host-visible operations a player
receives during playback — seeks and user-transform queries. -/
inductive PlayerOp where
  | seekOp (i : Nat)
  | queryOp (name : String)
deriving DecidableEq, Repr

/-- Apply one operation to a player; queries are read-only. -/
def applyOp (p : Player) : PlayerOp → Player
  | PlayerOp.seekOp i => (set_keyframe_index p i).1
  | PlayerOp.queryOp _ => p

/-- Modelled from the spec (§4.4, §5): two independent players loaded over the
same sequence; they hold no shared mutable state. -/
structure TwoPlayers where
  p1 : Player
  p2 : Player
deriving DecidableEq, Repr

/-- Dispatch one tagged operation to the addressed player (true = player 1). -/
def stepWorld (w : TwoPlayers) (op : Bool × PlayerOp) : TwoPlayers :=
  if op.1 then ⟨applyOp w.p1 op.2, w.p2⟩ else ⟨w.p1, applyOp w.p2 op.2⟩

/-- Run an interleaving of tagged operations against the two players. -/
def runWorld (w : TwoPlayers) (ops : List (Bool × PlayerOp)) : TwoPlayers :=
  ops.foldl stepWorld w

theorem runWorld_p1 (ops : List (Bool × PlayerOp)) :
    ∀ w : TwoPlayers, (runWorld w ops).p1
      = (ops.filter (fun op => op.1)).foldl (fun p op => applyOp p op.2) w.p1 := by
  induction ops with
  | nil => intro w; rfl
  | cons op ops ih =>
      intro w
      by_cases hb : op.1
      · have h1 : (op :: ops).filter (fun o => o.1) = op :: ops.filter (fun o => o.1) := by
          simp [List.filter_cons, hb]
        calc (runWorld w (op :: ops)).p1 = (runWorld (stepWorld w op) ops).p1 := rfl
          _ = (ops.filter (fun o => o.1)).foldl (fun p o => applyOp p o.2)
                (stepWorld w op).p1 := ih _
          _ = ((op :: ops).filter (fun o => o.1)).foldl (fun p o => applyOp p o.2) w.p1 := by
                rw [h1]; simp [stepWorld, hb]
      · have h1 : (op :: ops).filter (fun o => o.1) = ops.filter (fun o => o.1) := by
          simp [List.filter_cons, hb]
        calc (runWorld w (op :: ops)).p1 = (runWorld (stepWorld w op) ops).p1 := rfl
          _ = (ops.filter (fun o => o.1)).foldl (fun p o => applyOp p o.2)
                (stepWorld w op).p1 := ih _
          _ = ((op :: ops).filter (fun o => o.1)).foldl (fun p o => applyOp p o.2) w.p1 := by
                rw [h1]; simp [stepWorld, hb]

/-- C9: two players loaded from the same sequence share no mutable state — for
any interleaving of seeks and queries, player 1's final state (hence its
current index, reconstructed scene state, and every user-transform query
result) is exactly what it would be had player 2's operations never run
(two-run noninterference). -/
theorem player_noninterference (s : KeyframeSequence) (ops : List (Bool × PlayerOp)) :
    (runWorld ⟨Player.load s, Player.load s⟩ ops).p1
        = (runWorld ⟨Player.load s, Player.load s⟩ (ops.filter (fun op => op.1))).p1
  ∧ ∀ name, get_user_transform (runWorld ⟨Player.load s, Player.load s⟩ ops).p1 name
        = get_user_transform
            (runWorld ⟨Player.load s, Player.load s⟩ (ops.filter (fun op => op.1))).p1
            name := by
  have h1 := runWorld_p1 ops ⟨Player.load s, Player.load s⟩
  have h2 := runWorld_p1 (ops.filter (fun op => op.1)) ⟨Player.load s, Player.load s⟩
  have hf : (ops.filter (fun op => op.1)).filter (fun op => op.1)
      = ops.filter (fun op => op.1) := by
    simp [List.filter_filter]
  rw [hf] at h2
  have heq : (runWorld ⟨Player.load s, Player.load s⟩ ops).p1
      = (runWorld ⟨Player.load s, Player.load s⟩ (ops.filter (fun op => op.1))).p1 := by
    rw [h1, h2]
  exact ⟨heq, fun name => by rw [heq]⟩

/-- Modelled from the spec (§4.2, §6): schema/version tag written at the head
of the serialized document so that incompatible data fails loudly. -/
def formatVersion : Nat := 1

/-- Encode a natural number as one token of the serialized stream. -/
def encNat (n : Nat) : List Nat := [n]

/-- Encode an integer (sign tag, then magnitude). -/
def encInt : Int → List Nat
  | Int.ofNat n => [0, n]
  | Int.negSucc n => [1, n]

/-- Encode an optional id (presence tag, then value). -/
def encOptNat : Option Nat → List Nat
  | none => [0]
  | some n => [1, n]

/-- Encode a string (length, then character codes). -/
def encString (s : String) : List Nat := s.data.length :: s.data.map Char.toNat

/-- Encode the seven numeric components of a transform. -/
def encTransform (t : Transform) : List Nat :=
  encInt t.tx ++ encInt t.ty ++ encInt t.tz
    ++ encInt t.qw ++ encInt t.qx ++ encInt t.qy ++ encInt t.qz

/-- Encode one NodeCreation record. -/
def encCreation (c : NodeCreation) : List Nat :=
  encNat c.nodeId ++ encOptNat c.parent ++ encString c.assetRef ++ encTransform c.transform

/-- Encode one sparse NodeUpdate record. -/
def encUpdate (u : NodeUpdate) : List Nat :=
  encNat u.nodeId ++ encTransform u.transform

/-- Encode one named user-transform entry. -/
def encUserT (q : String × Transform) : List Nat := encString q.1 ++ encTransform q.2

/-- Encode a list (length prefix, then the concatenated element encodings). -/
def encList (encA : α → List Nat) (xs : List α) : List Nat :=
  xs.length :: (xs.map encA).flatten

/-- Encode one keyframe record (creations, deletions, sparse updates,
user-transform map). -/
def encKeyframe (k : Keyframe) : List Nat :=
  encList encCreation k.creations ++ encList encNat k.deletions
    ++ encList encUpdate k.updates ++ encList encUserT k.userTransforms

/-- Modelled from the spec (§4.2, §6): `serialize` converts an ordered keyframe
sequence into the self-describing serialized document — version tag, then the
ordered list of keyframe records. -/
def serialize (s : KeyframeSequence) : List Nat :=
  formatVersion :: encList encKeyframe s

/-- Decode one natural-number token. -/
def decNat : List Nat → Option (Nat × List Nat)
  | n :: rest => some (n, rest)
  | [] => none

/-- Decode an integer; fails on a malformed sign tag. -/
def decInt : List Nat → Option (Int × List Nat)
  | 0 :: n :: rest => some (Int.ofNat n, rest)
  | 1 :: n :: rest => some (Int.negSucc n, rest)
  | _ => none

/-- Decode an optional id; fails on a malformed presence tag. -/
def decOptNat : List Nat → Option (Option Nat × List Nat)
  | 0 :: rest => some (none, rest)
  | 1 :: n :: rest => some (some n, rest)
  | _ => none

/-- Decode exactly `n` character codes. -/
def decChars : Nat → List Nat → Option (List Char × List Nat)
  | 0, l => some ([], l)
  | _ + 1, [] => none
  | n + 1, c :: l =>
      match decChars n l with
      | some (cs, r) => some (Char.ofNat c :: cs, r)
      | none => none

/-- Decode a length-prefixed string. -/
def decString : List Nat → Option (String × List Nat)
  | n :: rest =>
      match decChars n rest with
      | some (cs, r) => some (String.mk cs, r)
      | none => none
  | [] => none

/-- Decode the seven numeric components of a transform. -/
def decTransform (l : List Nat) : Option (Transform × List Nat) :=
  (decInt l).bind fun a1 =>
  (decInt a1.2).bind fun a2 =>
  (decInt a2.2).bind fun a3 =>
  (decInt a3.2).bind fun a4 =>
  (decInt a4.2).bind fun a5 =>
  (decInt a5.2).bind fun a6 =>
  (decInt a6.2).map fun a7 =>
    (⟨a1.1, a2.1, a3.1, a4.1, a5.1, a6.1, a7.1⟩, a7.2)

/-- Decode one NodeCreation record. -/
def decCreation (l : List Nat) : Option (NodeCreation × List Nat) :=
  (decNat l).bind fun a1 =>
  (decOptNat a1.2).bind fun a2 =>
  (decString a2.2).bind fun a3 =>
  (decTransform a3.2).map fun a4 =>
    (⟨a1.1, a2.1, a3.1, a4.1⟩, a4.2)

/-- Decode one sparse NodeUpdate record. -/
def decUpdate (l : List Nat) : Option (NodeUpdate × List Nat) :=
  (decNat l).bind fun a1 =>
  (decTransform a1.2).map fun a2 =>
    (⟨a1.1, a2.1⟩, a2.2)

/-- Decode one named user-transform entry. -/
def decUserT (l : List Nat) : Option ((String × Transform) × List Nat) :=
  (decString l).bind fun a1 =>
  (decTransform a1.2).map fun a2 =>
    ((a1.1, a2.1), a2.2)

/-- Decode exactly `n` consecutive elements with the element decoder. -/
def decListN (decA : List Nat → Option (α × List Nat)) :
    Nat → List Nat → Option (List α × List Nat)
  | 0, l => some ([], l)
  | n + 1, l =>
      (decA l).bind fun a =>
      (decListN decA n a.2).map fun as => (a.1 :: as.1, as.2)

/-- Decode a length-prefixed list. -/
def decListPref (decA : List Nat → Option (α × List Nat)) (l : List Nat) :
    Option (List α × List Nat) :=
  (decNat l).bind fun a => decListN decA a.1 a.2

/-- Decode one keyframe record. -/
def decKeyframe (l : List Nat) : Option (Keyframe × List Nat) :=
  (decListPref decCreation l).bind fun a1 =>
  (decListPref decNat a1.2).bind fun a2 =>
  (decListPref decUpdate a2.2).bind fun a3 =>
  (decListPref decUserT a3.2).map fun a4 =>
    (⟨a1.1, a2.1, a3.1, a4.1⟩, a4.2)

/-- Modelled from the spec (§4.2, §7): `deserialize` parses a serialized
document back into a keyframe sequence, failing with FormatError on a
schema-version mismatch or any structural corruption (truncated data,
malformed tag, trailing garbage); no partial sequence is ever returned. -/
def deserialize (l : List Nat) : Except ReplayError KeyframeSequence :=
  match l with
  | v :: rest =>
      if v = formatVersion then
        match decListPref decKeyframe rest with
        | some (s, []) => Except.ok s
        | some (_, _ :: _) => Except.error ReplayError.FormatError
        | none => Except.error ReplayError.FormatError
      else Except.error ReplayError.FormatError
  | [] => Except.error ReplayError.FormatError

theorem decNat_enc (n : Nat) (r : List Nat) : decNat (encNat n ++ r) = some (n, r) := rfl

theorem decInt_enc (z : Int) (r : List Nat) : decInt (encInt z ++ r) = some (z, r) := by
  cases z <;> rfl

theorem decOptNat_enc (o : Option Nat) (r : List Nat) :
    decOptNat (encOptNat o ++ r) = some (o, r) := by
  cases o <;> rfl

theorem decChars_enc (cs : List Char) (r : List Nat) :
    decChars cs.length (cs.map Char.toNat ++ r) = some (cs, r) := by
  induction cs with
  | nil => rfl
  | cons c cs ih => simp [decChars, ih, Char.ofNat_toNat]

theorem decString_enc (s : String) (r : List Nat) :
    decString (encString s ++ r) = some (s, r) := by
  obtain ⟨d⟩ := s
  have h : decChars d.length (d.map Char.toNat ++ r) = some (d, r) := decChars_enc d r
  simp [encString, decString, h]

theorem decTransform_enc (t : Transform) (r : List Nat) :
    decTransform (encTransform t ++ r) = some (t, r) := by
  obtain ⟨x1, x2, x3, x4, x5, x6, x7⟩ := t
  simp [encTransform, decTransform, List.append_assoc, decInt_enc]

theorem decCreation_enc (c : NodeCreation) (r : List Nat) :
    decCreation (encCreation c ++ r) = some (c, r) := by
  obtain ⟨i, par, a, t⟩ := c
  simp [encCreation, decCreation, List.append_assoc, decNat, decOptNat_enc,
    decString_enc, decTransform_enc, encNat]

theorem decUpdate_enc (u : NodeUpdate) (r : List Nat) :
    decUpdate (encUpdate u ++ r) = some (u, r) := by
  obtain ⟨i, t⟩ := u
  simp [encUpdate, decUpdate, List.append_assoc, decNat, decTransform_enc, encNat]

theorem decUserT_enc (q : String × Transform) (r : List Nat) :
    decUserT (encUserT q ++ r) = some (q, r) := by
  obtain ⟨na, t⟩ := q
  simp [encUserT, decUserT, List.append_assoc, decString_enc, decTransform_enc]

theorem decListN_enc (decA : List Nat → Option (α × List Nat)) (encA : α → List Nat)
    (hA : ∀ a r, decA (encA a ++ r) = some (a, r)) (xs : List α) (r : List Nat) :
    decListN decA xs.length ((xs.map encA).flatten ++ r) = some (xs, r) := by
  induction xs generalizing r with
  | nil => rfl
  | cons x xs ih =>
      simp [decListN, List.append_assoc, hA, ih]

theorem decListPref_enc (decA : List Nat → Option (α × List Nat)) (encA : α → List Nat)
    (hA : ∀ a r, decA (encA a ++ r) = some (a, r)) (xs : List α) (r : List Nat) :
    decListPref decA (encList encA xs ++ r) = some (xs, r) := by
  simp [encList, decListPref, decNat, decListN_enc decA encA hA]

theorem decKeyframe_enc (k : Keyframe) (r : List Nat) :
    decKeyframe (encKeyframe k ++ r) = some (k, r) := by
  obtain ⟨cs, ds, us, uts⟩ := k
  simp [encKeyframe, decKeyframe, List.append_assoc,
    decListPref_enc decCreation encCreation decCreation_enc,
    decListPref_enc decNat encNat decNat_enc,
    decListPref_enc decUpdate encUpdate decUpdate_enc,
    decListPref_enc decUserT encUserT decUserT_enc]

/-- C1: the serializer round-trips — deserializing the document produced by
serializing any keyframe sequence recovers the sequence exactly,
field-for-field (the model's numeric components are exact, so exact equality
in particular lies within the documented numeric tolerance). -/
theorem serialize_roundtrip (s : KeyframeSequence) :
    deserialize (serialize s) = Except.ok s := by
  have h := decListPref_enc decKeyframe encKeyframe decKeyframe_enc s []
  rw [List.append_nil] at h
  simp [serialize, deserialize, h]

end GfxReplay

